import Mathlib

/-!
Verification of the SiteMirror reverse proxy (index.js).

The development shallowly embeds the cache-decision pipeline of the proxy:
the static-resource classifier, the cache-eligibility policy, the cache
middleware (lookup / store / hit reconstruction), the cache-management
handlers, the request-header transformer, the redirect-location rewriter
and the cache-key construction.

JavaScript string primitives used by the source (`toLowerCase`, `split`,
`trim`, `startsWith`, `includes`, first-occurrence `replace`) are embedded
as executable functions over `List Char`, wrapped back into `String`.
-/

namespace SiteMirror

/-! ## JavaScript string primitives -/

/-- Lower-casing of a character list (JS `toLowerCase` on ASCII data). -/
def lowerL (l : List Char) : List Char := l.map Char.toLower

/-- Lower-casing of a string, via its character list. -/
def lowerStr (s : String) : String := ⟨lowerL s.data⟩

/-- Split at every occurrence of a separator character (JS `split(sep)` for a
one-character separator).  Always returns a non-empty list of segments. -/
def splitOnCharL (sep : Char) : List Char → List (List Char)
  | [] => [[]]
  | c :: rest =>
    let r := splitOnCharL sep rest
    if c = sep then [] :: r
    else
      match r with
      | [] => [[c]]
      | h :: t => (c :: h) :: t

/-- Strip whitespace from both ends (JS `trim`). -/
def trimL (l : List Char) : List Char :=
  ((l.dropWhile Char.isWhitespace).reverse.dropWhile Char.isWhitespace).reverse

/-- JS `s.startsWith(pat)`. -/
def strStartsWith (s pat : String) : Bool := pat.data.isPrefixOf s.data

/-- Substring occurrence on character lists (JS `includes`). -/
def hasSubstrL (pat : List Char) : List Char → Bool
  | [] => pat.isEmpty
  | c :: rest => pat.isPrefixOf (c :: rest) || hasSubstrL pat rest

/-- JS `s.includes(pat)`. -/
def strHasSubstr (s pat : String) : Bool := hasSubstrL pat.data s.data

/-- Replace the first (leftmost) occurrence of `pat` by `repl`
(JS `String.prototype.replace` with a string pattern). -/
def replaceFirstL (pat repl : List Char) : List Char → List Char
  | [] => if pat.isEmpty then repl else []
  | c :: rest =>
    if pat.isPrefixOf (c :: rest) then repl ++ (c :: rest).drop pat.length
    else c :: replaceFirstL pat repl rest

/-- JS `s.replace(pat, repl)` (first occurrence only). -/
def strReplaceFirst (s pat repl : String) : String :=
  ⟨replaceFirstL pat.data repl.data s.data⟩

/-! ## Configuration (environment values, read once at startup) -/

/-- Process-wide configuration: `PROXY_PROTOCOL`, `PROXY_ORIGIN`,
`CACHE_STRATEGY`, `CACHE_STATIC_ONLY`, `CACHE_TTL`, `CACHE_CLEAR_TOKEN`. -/
structure Config where
  protocol : String := "https"
  origin : String := "hono.dev"
  strategy : String := "auto"
  staticOnly : Bool := false
  ttl : Nat := 300
  clearToken : String := "123456"
deriving DecidableEq, Repr

/-! ## Resource classifier (`isStaticResource`) -/

/-- The fixed allow-list of static asset extensions (source constant
`STATIC_EXTENSIONS`). -/
def STATIC_EXTENSIONS : List String :=
  ["jpg", "jpeg", "png", "gif", "bmp", "webp", "svg", "ico",
   "woff", "woff2", "ttf", "eot", "otf",
   "css", "js",
   "mp4", "webm", "mp3", "wav", "ogg",
   "pdf", "xml", "json", "txt", "csv", "zip", "gz", "tar", "rar", "7z"]

/-- The fixed MIME-type fragments treated as static (local constant
`staticMimeTypes` inside `isStaticResource`). -/
def staticMimeTypes : List String :=
  ["image/", "font/", "application/font-", "application/x-font-",
   "text/css", "application/javascript", "text/javascript",
   "video/", "audio/", "application/pdf", "application/zip",
   "application/x-tar", "application/x-rar-compressed",
   "application/x-7z-compressed"]

/-- The file extension of a path: `path.split('.').pop().toLowerCase()`.
For a path with no dot this is the whole (lowercased) path, as in the
source. -/
def extOf (path : String) : String :=
  ⟨lowerL ((splitOnCharL '.' path.data).getLastD [])⟩

/-- Source `isStaticResource(path, contentType)`.  Absent arguments are
embedded as the empty string, matching the JS falsiness checks
`if (path)` / `if (contentType)`. -/
def isStaticResource (path contentType : String) : Bool :=
  (path ≠ "" && STATIC_EXTENSIONS.contains (extOf path))
    || (contentType ≠ "" && staticMimeTypes.any (fun m => strHasSubstr contentType m))

/-! ## Cache policy (`shouldCacheResponse`) -/

/-- The directive list of a cache-control value:
`cacheControl.toLowerCase().split(',').map(d => d.trim())`. -/
def directives (cacheControl : String) : List String :=
  (splitOnCharL ',' (lowerL cacheControl.data)).map (fun d => ⟨trimL d⟩)

/-- Source `shouldCacheResponse(path, contentType, cacheControl)`.  The
configured strategy and static-only flag are passed explicitly.  An absent
cache-control header is embedded as `""` (the middleware passes
`response.headers.get('cache-control') || ''`, and the JS guard
`if (!cacheControl)` also treats `""` as absent). -/
def shouldCacheResponse (cfg : Config) (path contentType cacheControl : String) : Bool :=
  if cfg.strategy = "off" then false
  else if cfg.staticOnly && !(isStaticResource path contentType) then false
  else if cfg.strategy = "force" then true
  else if cfg.strategy = "auto" then
    if cacheControl = "" then true
    else
      let ds := directives cacheControl
      if ds.contains "no-store" || ds.contains "no-cache" then false
      else if ds.contains "private" && !cfg.staticOnly then false
      else true
  else false

/-- Modelled from the spec: the decision table of section 4.2, written from
the claim's words, to be compared with the source function
`shouldCacheResponse`.  The table only covers the three documented
strategies. -/
def shouldCacheSpecTable (cfg : Config) (path contentType cacheControl : String) : Bool :=
  if cfg.strategy = "off" then false
  else if cfg.staticOnly && !(isStaticResource path contentType) then false
  else if cfg.strategy = "force" then true
  else
    -- strategy `auto`
    if cacheControl = "" then true
    else
      let ds := directives cacheControl
      !(ds.contains "no-store" || ds.contains "no-cache"
          || (ds.contains "private" && !cfg.staticOnly))

/-! ## Response-header bag (Fetch `Headers`)

Headers are embedded as association lists with case-insensitive lookup
(`Headers.get`) and replace-or-append update (`Headers.set`).  The JS
`Headers` object stores names lowercased; since every observation in the
claims goes through the case-insensitive `get`, the embedding keeps the
name used at `set` time, which is observationally equivalent. -/

/-- Fetch `headers.get(name)`: case-insensitive lookup. -/
def hdrGet (hs : List (String × String)) (name : String) : Option String :=
  match hs with
  | [] => none
  | p :: t => if lowerStr p.1 = lowerStr name then some p.2 else hdrGet t name

/-- Fetch `headers.set(name, value)`: drop any entry with the same
case-insensitive name, then append the new pair. -/
def hdrSet (hs : List (String × String)) (name v : String) : List (String × String) :=
  (hs.filter (fun p => lowerStr p.1 != lowerStr name)) ++ [(name, v)]

/-! ## Cache store (the external LRU map, as a key-value abstraction) -/

/-- A cached entry (source object stored by `cache.set`): body bytes,
content type, status, status text, the pre-rewrite header snapshot, and
the capture timestamp. -/
structure CacheEntry where
  body : List Nat
  contentType : String
  status : Nat
  statusText : String
  headers : List (String × String)
  cachedAt : Nat
deriving DecidableEq, Repr

/-- The cache store, abstracted as an association list (the bounded LRU
eviction is the external collaborator's concern). -/
abbrev Store := List (String × CacheEntry)

/-- The store's `get`. -/
def storeGet (s : Store) (k : String) : Option CacheEntry :=
  match s with
  | [] => none
  | p :: t => if p.1 = k then some p.2 else storeGet t k

/-- The store's `set` (new binding shadows any older one). -/
def storeSet (s : Store) (k : String) (v : CacheEntry) : Store :=
  (k, v) :: s

/-! ## Requests, responses, and the cache middleware -/

/-- An inbound request as the middleware sees it: `c.req.method`,
`c.req.path`, and `c.req.url` (the absolute URL built by the server
adapter from the inbound Host header). -/
structure Req where
  method : String
  path : String
  url : String
deriving DecidableEq, Repr

/-- A response value: status, status text, headers, body bytes. -/
structure Resp where
  status : Nat
  statusText : String
  headers : List (String × String)
  body : List Nat
deriving DecidableEq, Repr

/-- Result of one middleware invocation: the response handed back to the
client (`c.res` afterwards), the cache store afterwards, and the keys the
invocation read from / wrote to the store (instrumentation of the
`cache.get` / `cache.set` call sites). -/
structure MWOut where
  resp : Option Resp
  store : Store
  reads : List String
  writes : List String
deriving DecidableEq, Repr

/-- The cache key of a request: `` `cache:${c.req.url}` ``. -/
def cacheKeyOf (url : String) : String := "cache:" ++ url

/-- Source `staticCacheMiddleware`.  `next` is the downstream handler's
response (`c.res` after `await next()`); `now` is `Date.now()` at capture
time. -/
def staticCacheMiddleware (cfg : Config) (store : Store) (req : Req)
    (next : Option Resp) (now : Nat) : MWOut :=
  if cfg.strategy = "off" then ⟨next, store, [], []⟩
  else if strStartsWith req.path "/cache/" then ⟨next, store, [], []⟩
  else if req.method ≠ "GET" then ⟨next, store, [], []⟩
  else
    let cacheKey := cacheKeyOf req.url
    match storeGet store cacheKey with
    | some cached =>
      let responseHeaders :=
        hdrSet (hdrSet (hdrSet cached.headers "X-Cache" "HIT")
          "X-Cache-Key" cacheKey) "X-Cache-Strategy" cfg.strategy
      ⟨some ⟨cached.status, cached.statusText, responseHeaders, cached.body⟩,
        store, [cacheKey], []⟩
    | none =>
      match next with
      | some res =>
        if res.status = 200 then
          let contentType := (hdrGet res.headers "content-type").getD ""
          let cacheControl := (hdrGet res.headers "cache-control").getD ""
          let path := req.path
          if shouldCacheResponse cfg path contentType cacheControl then
            let entry : CacheEntry :=
              ⟨res.body, contentType, res.status, res.statusText, res.headers, now⟩
            let store2 := storeSet store cacheKey entry
            let h1 := hdrSet (hdrSet (hdrSet res.headers "X-Cache" "MISS (Cached)")
              "X-Cache-Key" cacheKey) "X-Cache-Strategy" cfg.strategy
            let h2 :=
              if cfg.strategy = "force" then
                hdrSet h1 "Cache-Control" ("public, max-age=" ++ toString cfg.ttl)
              else if cfg.strategy = "auto" then
                if cacheControl = "" then
                  hdrSet h1 "Cache-Control" ("public, max-age=" ++ toString cfg.ttl)
                else h1
              else h1
            ⟨some { res with headers := h2 }, store2, [cacheKey], [cacheKey]⟩
          else
            let reason :=
              if cfg.strategy = "off" then "disabled"
              else if cfg.staticOnly && !(isStaticResource path contentType) then "non-static"
              else "cache-control-forbidden"
            let h1 := hdrSet (hdrSet (hdrSet res.headers "X-Cache" "BYPASS")
              "X-Cache-Strategy" cfg.strategy) "X-Cache-Reason" reason
            let h2 := hdrSet h1 "Cache-Control" "no-cache, no-store, must-revalidate"
            ⟨some { res with headers := h2 }, store, [cacheKey], []⟩
        else ⟨some res, store, [cacheKey], []⟩
      | none => ⟨none, store, [cacheKey], []⟩

/-! ## Cache-management handlers -/

/-- Body of a cache-management endpoint response. -/
inductive ApiBody where
  | errJson (msg : String)
  | textBody (msg : String)
  | infoBody (size maxEntries ttlMs : Nat) (strategy : String) (staticOnly : Bool)
  | clearedBody (message : String) (success : Bool)
  | statsBody (total : Nat) (strategy : String) (staticOnly : Bool)
      (entries : List (String × String × Nat × Nat))
deriving DecidableEq, Repr

/-- Source handler for `GET /cache/info?token=<t>`.  `token` is
`c.req.query('token')` (`none` when absent). -/
def cacheInfoHandler (cfg : Config) (store : Store) (token : Option String) :
    Nat × ApiBody :=
  if cfg.strategy = "off" then (403, .errJson "Cache is disabled")
  else if token ≠ some cfg.clearToken then (401, .textBody "Unauthorized")
  else (200, .infoBody store.length 100 (cfg.ttl * 1000) cfg.strategy cfg.staticOnly)

/-- Source handler for `GET /cache/clear`.  The handler receives the
`token` query parameter but — unlike `/cache/info` — the source never
reads it: after the disabled check it clears the store unconditionally. -/
def cacheClearHandler (cfg : Config) (store : Store) (token : Option String) :
    (Nat × ApiBody) × Store :=
  if cfg.strategy = "off" then ((403, .errJson "Cache is disabled"), store)
  else ((200, .clearedBody "Cache cleared successfully" true), [])

/-- Source handler for `GET /cache/stats`. -/
def cacheStatsHandler (cfg : Config) (store : Store) : Nat × ApiBody :=
  if cfg.strategy = "off" then (403, .errJson "Cache is disabled")
  else
    let cacheEntries :=
      (store.filter (fun p => strStartsWith p.1 "cache:")).map
        (fun p => (strReplaceFirst p.1 "cache:" "", p.2.contentType,
          p.2.cachedAt, p.2.body.length))
    (200, .statsBody cacheEntries.length cfg.strategy cfg.staticOnly
      (cacheEntries.take 20))

/-! ## Outbound request-header transformer (`processHeaders`) -/

/-- The request headers dropped on the way to the origin (source list in
`processHeaders`). -/
def droppedReqHeaders : List String :=
  ["accept-encoding", "connection", "keep-alive", "content-length"]

/-- JS object assignment `headers[key] = value`: replace the value when
the exact key is already present, otherwise append the pair. -/
def setEntry (l : List (String × String)) (k v : String) : List (String × String) :=
  if l.any (fun p => p.1 == k) then
    l.map (fun p => if p.1 == k then (k, v) else p)
  else l ++ [(k, v)]

/-- One iteration of the source loop in `processHeaders`: `host` keys are
rewritten to the configured origin, the dropped names are skipped, and
every other pair is copied. -/
def processHeadersStep (cfg : Config) (acc : List (String × String))
    (kv : String × String) : List (String × String) :=
  let lowerKey := lowerStr kv.1
  if lowerKey = "host" then setEntry acc "host" cfg.origin
  else if droppedReqHeaders.contains lowerKey then acc
  else setEntry acc kv.1 kv.2

/-- Source `processHeaders(originalHeaders)`: fold the loop over the
inbound header pairs, then `new Headers(headers)`, which lowercases the
names.  (Value-combining of case-duplicate names by `Headers` is not
modelled; the inbound pairs come from a Fetch `Headers` iterator, whose
names are already lowercase and unique.) -/
def processHeaders (cfg : Config) (originalHeaders : List (String × String)) :
    List (String × String) :=
  (originalHeaders.foldl (processHeadersStep cfg) []).map
    (fun kv => (lowerStr kv.1, kv.2))

/-- The per-header action of `processHeaders`, as a partial map: used to
characterise the fold. -/
def headerMapFn (cfg : Config) (kv : String × String) : Option (String × String) :=
  if lowerStr kv.1 = "host" then some ("host", cfg.origin)
  else if droppedReqHeaders.contains (lowerStr kv.1) then none
  else some kv

/-! ## Redirect-location rewriting (`fixRedirectUrl`) -/

/-- Source `fixRedirectUrl(location, c)`.  The second argument models
`new URL(c.req.url)`: `some (protocol, host)` when the request URL
parses — `protocol` is `url.protocol.replace(':', '')` and `host` is
`url.host` — and `none` when the parse throws.  The result type
separates the three observable outcomes: `.error ()` models an exception
escaping the function (the `new URL` call sits before the `try` block in
the source, so a parse failure propagates to the caller), `.ok none` is
the JS `null` return, and the `try` body itself consists of string
operations that cannot throw. -/
def fixRedirectUrl (cfg : Config) (location : String)
    (reqUrl : Option (String × String)) : Except Unit (Option String) :=
  if location = "" then .ok none
  else
    match reqUrl with
    | none => .error ()
    | some (protocol, host) =>
      .ok (some (
        if strStartsWith location "http://" || strStartsWith location "https://" then
          if strHasSubstr location cfg.origin then
            strReplaceFirst location (cfg.protocol ++ "://" ++ cfg.origin)
              (protocol ++ "://" ++ host)
          else location
        else
          let path := if strStartsWith location "/" then location else "/" ++ location
          protocol ++ "://" ++ host ++ path))

/-! ## Cache-key construction -/

/-- The absolute request URL (`c.req.url`) as the server adapter builds
it from the inbound request: scheme, the inbound Host header value, and
the path-plus-query target. -/
def reqFullUrl (scheme hostHdr target : String) : String :=
  scheme ++ "://" ++ hostHdr ++ target

end SiteMirror

namespace SiteMirror

/-! ## Claim C1: the cache policy implements the spec's decision table -/

/-- C1.  `shouldCache(path, contentType, cacheControl)` implements the
spec's decision table evaluated in order: strategy `off` returns false;
`staticOnly` with a non-static path/content-type returns false; `force`
returns true regardless of cache-control; `auto` returns true on an absent
cache-control, false when the directive set contains `no-store` or
`no-cache`, false when it contains `private` and `staticOnly` is false,
and true otherwise. -/
theorem shouldCache_implements_spec_table (cfg : Config) (path contentType cacheControl : String)
    (h : cfg.strategy = "off" ∨ cfg.strategy = "force" ∨ cfg.strategy = "auto") :
    shouldCacheResponse cfg path contentType cacheControl
      = shouldCacheSpecTable cfg path contentType cacheControl := by
  rcases h with h | h | h <;>
    simp only [shouldCacheResponse, shouldCacheSpecTable, h, if_true, if_false,
      reduceIte]
  · -- strategy = "auto": the two final-step encodings agree
    by_cases hcc : cacheControl = ""
    · simp [hcc]
    · simp only [hcc, if_false, reduceIte]
      cases hns : (directives cacheControl).contains "no-store" <;>
        cases hnc : (directives cacheControl).contains "no-cache" <;>
        cases hp : (directives cacheControl).contains "private" <;>
        cases hso : cfg.staticOnly <;>
        simp [hns, hnc, hp, hso]

/-- C1 witness: the theorem applied to a concrete `auto` configuration and
a `no-store` cache-control value. -/
theorem shouldCache_implements_spec_table_witness :
    shouldCacheResponse { strategy := "auto" } "/a.css" "text/css" "private, no-store"
      = shouldCacheSpecTable { strategy := "auto" } "/a.css" "text/css" "private, no-store" :=
  shouldCache_implements_spec_table _ _ _ _ (Or.inr (Or.inr rfl))

/-! ## Claim C10: unknown strategies never cache -/

/-- C10.  For every strategy string other than `off`, `force` and `auto`
(a misconfigured `CACHE_STRATEGY`), `shouldCache` returns false for all
path, content-type and cache-control inputs: the policy fails closed. -/
theorem shouldCache_unknown_strategy_false (cfg : Config) (path contentType cacheControl : String)
    (h1 : cfg.strategy ≠ "off") (h2 : cfg.strategy ≠ "force") (h3 : cfg.strategy ≠ "auto") :
    shouldCacheResponse cfg path contentType cacheControl = false := by
  simp only [shouldCacheResponse, h1, h2, h3, if_false, reduceIte]
  split <;> rfl

/-- C10 witness: a concrete misconfigured strategy value is rejected even
for a static path with no cache-control. -/
theorem shouldCache_unknown_strategy_false_witness :
    shouldCacheResponse { strategy := "aggressive" } "/a.css" "text/css" "" = false :=
  shouldCache_unknown_strategy_false _ _ _ _
    (by decide) (by decide) (by decide)

/-! ## Claim C8: path-only static classification is exactly extension membership -/

/-- C8.  For all paths `p`, `isStatic(p, undefined)` returns true if and
only if `p`'s file extension (the case-insensitive substring after the
last `.`, computed as `path.split('.').pop().toLowerCase()`) is in the
fixed asset-extension set. -/
theorem isStatic_path_iff_extension_mem (p : String) :
    isStaticResource p "" = true ↔ extOf p ∈ STATIC_EXTENSIONS := by
  by_cases hp : p = ""
  · subst hp
    constructor
    · intro h
      exact absurd h (by decide)
    · intro h
      exact absurd h (by decide)
  · simp [isStaticResource, hp, List.elem_iff]

/-- C8 witness: a concrete path with an upper-case `CSS` extension is
classified static by the theorem's right-to-left direction. -/
theorem isStatic_path_iff_extension_mem_witness :
    isStaticResource "/theme/app.CSS" "" = true :=
  (isStatic_path_iff_extension_mem "/theme/app.CSS").mpr (by decide)

/-! ## Header-bag lemmas -/

theorem hdrGet_hdrSet_same (hs : List (String × String)) (n v m : String)
    (h : lowerStr m = lowerStr n) : hdrGet (hdrSet hs n v) m = some v := by
  induction hs with
  | nil => simp [hdrGet, hdrSet, h]
  | cons p t ih =>
    by_cases hp : lowerStr p.1 = lowerStr n
    · simpa [hdrSet, List.filter_cons, hp] using ih
    · simpa [hdrSet, hdrGet, List.filter_cons, hp, h] using ih

theorem hdrGet_cons (p : String × String) (t : List (String × String)) (m : String) :
    hdrGet (p :: t) m = if lowerStr p.1 = lowerStr m then some p.2 else hdrGet t m := rfl

theorem hdrGet_hdrSet_other (hs : List (String × String)) (n v m : String)
    (h : lowerStr m ≠ lowerStr n) : hdrGet (hdrSet hs n v) m = hdrGet hs m := by
  induction hs with
  | nil => simp [hdrGet, hdrSet, Ne.symm h]
  | cons p t ih =>
    simp only [hdrSet, List.filter_cons] at ih ⊢
    by_cases hp : lowerStr p.1 = lowerStr n
    · have hpm : ¬ lowerStr p.1 = lowerStr m := by rw [hp]; exact Ne.symm h
      simp only [hp, bne_self_eq_false, Bool.false_eq_true, if_false]
      rw [ih, hdrGet_cons, if_neg hpm]
    · simp only [bne_iff_ne, ne_eq, hp, not_false_eq_true, if_true, List.cons_append]
      by_cases hpm : lowerStr p.1 = lowerStr m
      · rw [hdrGet_cons, hdrGet_cons, if_pos hpm, if_pos hpm]
      · rw [hdrGet_cons, hdrGet_cons, if_neg hpm, if_neg hpm, ih]

theorem storeGet_storeSet_same (s : Store) (k : String) (v : CacheEntry) :
    storeGet (storeSet s k v) k = some v := by
  simp [storeGet, storeSet]

/-! ## Claim C3: strategy `off` never touches the cache; endpoints report disabled -/

/-- C3.  When the configured strategy is `off`, the cache middleware never
creates or reads a cache entry on any request (the result is the
downstream response, the store is unchanged, and the read/write
instrumentation is empty), and every cache-management endpoint responds
403 with the body ``{error: "Cache is disabled"}``. -/
theorem cache_off_never_touches_store (cfg : Config) (hoff : cfg.strategy = "off") :
    (∀ (store : Store) (req : Req) (next : Option Resp) (now : Nat),
        staticCacheMiddleware cfg store req next now = ⟨next, store, [], []⟩)
    ∧ (∀ (store : Store) (token : Option String),
        cacheInfoHandler cfg store token = (403, .errJson "Cache is disabled"))
    ∧ (∀ (store : Store) (token : Option String),
        cacheClearHandler cfg store token = ((403, .errJson "Cache is disabled"), store))
    ∧ (∀ store : Store,
        cacheStatsHandler cfg store = (403, .errJson "Cache is disabled")) := by
  refine ⟨?_, ?_, ?_, ?_⟩ <;> intros <;>
    simp [staticCacheMiddleware, cacheInfoHandler, cacheClearHandler,
      cacheStatsHandler, hoff]

/-- C3 witness: concrete `off` configuration, concrete store and request:
the middleware forwards the downstream response untouched and
`/cache/clear` reports disabled without clearing. -/
theorem cache_off_never_touches_store_witness :
    staticCacheMiddleware { strategy := "off" }
        [("cache:http://m/x", ⟨[7], "text/css", 200, "OK", [], 0⟩)]
        ⟨"GET", "/x", "http://m/x"⟩ none 0
      = ⟨none, [("cache:http://m/x", ⟨[7], "text/css", 200, "OK", [], 0⟩)], [], []⟩
    ∧ cacheClearHandler { strategy := "off" }
        [("cache:http://m/x", ⟨[7], "text/css", 200, "OK", [], 0⟩)] (some "123456")
      = ((403, .errJson "Cache is disabled"),
          [("cache:http://m/x", ⟨[7], "text/css", 200, "OK", [], 0⟩)]) :=
  ⟨(cache_off_never_touches_store { strategy := "off" } rfl).1 _ _ _ _,
    (cache_off_never_touches_store { strategy := "off" } rfl).2.2.1 _ _⟩

/-! ## Claim C2: cache round-trip fidelity -/

/-- C2.  For every 200 GET response stored in the cache (one that passes
the cache policy on a miss) and every later identical GET served as a
cache HIT, the HIT response reproduces the stored response's status,
statusText and body bytes exactly; its headers equal the headers snapshot
taken at capture time (pre-rewrite) plus only the diagnostic headers
`X-Cache`, `X-Cache-Key` and `X-Cache-Strategy`. -/
theorem cache_roundtrip (cfg : Config) (store : Store) (req : Req) (res : Resp)
    (next2 : Option Resp) (now now2 : Nat)
    (hoff : cfg.strategy ≠ "off")
    (hpath : strStartsWith req.path "/cache/" = false)
    (hmethod : req.method = "GET")
    (hmiss : storeGet store (cacheKeyOf req.url) = none)
    (hstatus : res.status = 200)
    (hpolicy : shouldCacheResponse cfg req.path
        ((hdrGet res.headers "content-type").getD "")
        ((hdrGet res.headers "cache-control").getD "") = true) :
    ∃ hit : Resp,
      (staticCacheMiddleware cfg
          (staticCacheMiddleware cfg store req (some res) now).store req next2 now2).resp
        = some hit
      ∧ hit.status = res.status ∧ hit.statusText = res.statusText ∧ hit.body = res.body
      ∧ hdrGet hit.headers "X-Cache" = some "HIT"
      ∧ hdrGet hit.headers "X-Cache-Key" = some (cacheKeyOf req.url)
      ∧ hdrGet hit.headers "X-Cache-Strategy" = some cfg.strategy
      ∧ (∀ name : String, lowerStr name ≠ lowerStr "X-Cache" →
          lowerStr name ≠ lowerStr "X-Cache-Key" →
          lowerStr name ≠ lowerStr "X-Cache-Strategy" →
          hdrGet hit.headers name = hdrGet res.headers name) := by
  have hstore1 :
      (staticCacheMiddleware cfg store req (some res) now).store
        = storeSet store (cacheKeyOf req.url)
            ⟨res.body, (hdrGet res.headers "content-type").getD "",
              res.status, res.statusText, res.headers, now⟩ := by
    simp [staticCacheMiddleware, hoff, hpath, hmethod, hmiss, hstatus, hpolicy]
  refine ⟨⟨res.status, res.statusText,
    hdrSet (hdrSet (hdrSet res.headers "X-Cache" "HIT")
      "X-Cache-Key" (cacheKeyOf req.url)) "X-Cache-Strategy" cfg.strategy,
    res.body⟩, ?_, rfl, rfl, rfl, ?_, ?_, ?_, ?_⟩
  · rw [hstore1]
    simp [staticCacheMiddleware, hoff, hpath, hmethod, storeGet_storeSet_same]
  · rw [hdrGet_hdrSet_other _ _ _ _ (by decide),
      hdrGet_hdrSet_other _ _ _ _ (by decide),
      hdrGet_hdrSet_same _ _ _ _ (by decide)]
  · rw [hdrGet_hdrSet_other _ _ _ _ (by decide),
      hdrGet_hdrSet_same _ _ _ _ (by decide)]
  · rw [hdrGet_hdrSet_same _ _ _ _ (by decide)]
  · intro name h1 h2 h3
    rw [hdrGet_hdrSet_other _ _ _ _ h3, hdrGet_hdrSet_other _ _ _ _ h2,
      hdrGet_hdrSet_other _ _ _ _ h1]

/-- C2 witness: a concrete `auto` scenario — a 200 GET for `/logo.css`
with `cache-control: public` is stored on the first pass, and the second
identical request is served as a HIT reproducing status, statusText and
body, with only the diagnostic headers layered on. -/
theorem cache_roundtrip_witness :
    ∃ hit : Resp,
      (staticCacheMiddleware { strategy := "auto" }
          (staticCacheMiddleware { strategy := "auto" } [] ⟨"GET", "/logo.css", "http://m/logo.css"⟩
            (some ⟨200, "OK", [("content-type", "text/css"), ("cache-control", "public")], [10, 20]⟩)
            5).store
          ⟨"GET", "/logo.css", "http://m/logo.css"⟩ none 9).resp
        = some hit
      ∧ hit.status = (⟨200, "OK", [("content-type", "text/css"), ("cache-control", "public")], [10, 20]⟩ : Resp).status
      ∧ hit.statusText = (⟨200, "OK", [("content-type", "text/css"), ("cache-control", "public")], [10, 20]⟩ : Resp).statusText
      ∧ hit.body = (⟨200, "OK", [("content-type", "text/css"), ("cache-control", "public")], [10, 20]⟩ : Resp).body
      ∧ hdrGet hit.headers "X-Cache" = some "HIT"
      ∧ hdrGet hit.headers "X-Cache-Key" = some (cacheKeyOf "http://m/logo.css")
      ∧ hdrGet hit.headers "X-Cache-Strategy" = some ({ strategy := "auto" } : Config).strategy
      ∧ (∀ name : String, lowerStr name ≠ lowerStr "X-Cache" →
          lowerStr name ≠ lowerStr "X-Cache-Key" →
          lowerStr name ≠ lowerStr "X-Cache-Strategy" →
          hdrGet hit.headers name
            = hdrGet [("content-type", "text/css"), ("cache-control", "public")] name) :=
  cache_roundtrip { strategy := "auto" } [] ⟨"GET", "/logo.css", "http://m/logo.css"⟩
    ⟨200, "OK", [("content-type", "text/css"), ("cache-control", "public")], [10, 20]⟩
    none 5 9 (by decide) (by decide) rfl rfl rfl (by decide)

/-! ## Claim C4: `/cache/clear` does NOT enforce the token (code bug)

The spec requires `/cache/clear` to follow the same 401 rule as
`/cache/info` (`token` mismatch → 401 Unauthorized, store untouched), and
the configuration constant is named `CACHE_CLEAR_TOKEN`; but the source
handler never reads the token: with caching enabled it clears the store
and returns 200 for any caller. -/

/-- C4.  Evaluation of the source `/cache/clear` handler at a failing
input: a request whose token (`"wrong"`) mismatches the configured token
(`"123456"`) still clears the store and receives
`200 {message, success: true}` instead of the specified
`401 "Unauthorized"`. -/
theorem cacheClear_unauthorized_still_clears :
    cacheClearHandler { strategy := "auto", clearToken := "123456" }
        [("cache:http://m/x", ⟨[1, 2], "text/css", 200, "OK", [], 0⟩)] (some "wrong")
      = ((200, .clearedBody "Cache cleared successfully" true), [])
    ∧ (some "wrong" : Option String) ≠ some "123456"
    ∧ cacheInfoHandler { strategy := "auto", clearToken := "123456" }
        [("cache:http://m/x", ⟨[1, 2], "text/css", 200, "OK", [], 0⟩)] (some "wrong")
      = (401, .textBody "Unauthorized") := by
  refine ⟨rfl, by decide, ?_⟩
  rfl

/-! ## Claim C7: outbound request-header transformation -/

theorem map_eq_self_of_mem {α : Type} (f : α → α) (l : List α)
    (h : ∀ x ∈ l, f x = x) : l.map f = l := by
  induction l with
  | nil => rfl
  | cons a t ih => simp [h a (List.mem_cons_self a t), ih (fun x hx => h x (List.mem_cons_of_mem a hx))]

theorem setEntry_of_fresh (l : List (String × String)) (k v : String)
    (h : ∀ p ∈ l, p.1 ≠ k) : setEntry l k v = l ++ [(k, v)] := by
  rw [setEntry, if_neg]
  simp only [List.any_eq_true, beq_iff_eq, not_exists, not_and]
  intro p hp
  exact h p hp

theorem processHeaders_foldl_eq (cfg : Config) (l : List (String × String)) :
    ∀ acc : List (String × String),
      (∀ kv ∈ l, lowerStr kv.1 = kv.1) →
      (l.map (fun kv => kv.1)).Nodup →
      (∀ kv ∈ l, ∀ p ∈ acc, p.1 ≠ kv.1) →
      l.foldl (processHeadersStep cfg) acc = acc ++ l.filterMap (headerMapFn cfg) := by
  induction l with
  | nil => intro acc _ _ _; simp
  | cons kv t ih =>
    intro acc hlc hnd hdisj
    have hlk : lowerStr kv.1 = kv.1 := hlc kv (List.mem_cons_self kv t)
    have hlc' : ∀ x ∈ t, lowerStr x.1 = x.1 :=
      fun x hx => hlc x (List.mem_cons_of_mem kv hx)
    have hnd' : (t.map (fun x => x.1)).Nodup := by
      simpa using hnd.of_cons
    have hhead : ∀ x ∈ t, kv.1 ≠ x.1 := by
      intro x hx heq
      have : kv.1 ∈ t.map (fun x => x.1) := by
        rw [heq]; exact List.mem_map_of_mem _ hx
      simp only [List.map_cons, List.nodup_cons] at hnd
      exact hnd.1 this
    rw [List.foldl_cons, List.filterMap_cons]
    by_cases hhost : lowerStr kv.1 = "host"
    · have hkey : kv.1 = "host" := by rw [← hlk, hhost]
      have hstep : processHeadersStep cfg acc kv = acc ++ [("host", cfg.origin)] := by
        rw [processHeadersStep]
        simp only [hhost, if_true, reduceIte]
        exact setEntry_of_fresh acc "host" cfg.origin (fun p hp heq =>
          hdisj kv (List.mem_cons_self kv t) p hp (heq.trans hkey.symm))
      rw [hstep, headerMapFn, if_pos hhost,
        ih (acc ++ [("host", cfg.origin)]) hlc' hnd' ?_, List.append_assoc,
        List.singleton_append]
      intro x hx p hp
      rcases List.mem_append.mp hp with hpa | hpb
      · exact hdisj x (List.mem_cons_of_mem kv hx) p hpa
      · have : p = ("host", cfg.origin) := by simpa using hpb
        rw [this]
        exact fun heq => hhead x hx (hkey.trans heq)
    · by_cases hdrop : (lowerStr kv.1) ∈ droppedReqHeaders
      · have hstep : processHeadersStep cfg acc kv = acc := by
          rw [processHeadersStep]
          simp [hhost, List.elem_iff, hdrop]
        have hfm : headerMapFn cfg kv = none := by
          rw [headerMapFn]
          simp [hhost, List.elem_iff, hdrop]
        rw [hstep, hfm]
        exact ih acc hlc' hnd' (fun x hx => hdisj x (List.mem_cons_of_mem kv hx))
      · have hstep : processHeadersStep cfg acc kv = acc ++ [kv] := by
          rw [processHeadersStep]
          simp only [hhost, if_false, reduceIte, List.elem_iff, hdrop]
          exact setEntry_of_fresh acc kv.1 kv.2 (fun p hp heq =>
            hdisj kv (List.mem_cons_self kv t) p hp heq)
        have hfm : headerMapFn cfg kv = some kv := by
          rw [headerMapFn]
          simp [hhost, List.elem_iff, hdrop]
        rw [hstep, hfm, ih (acc ++ [kv]) hlc' hnd' ?_, List.append_assoc,
          List.singleton_append]
        intro x hx p hp
        rcases List.mem_append.mp hp with hpa | hpb
        · exact hdisj x (List.mem_cons_of_mem kv hx) p hpa
        · have : p = kv := by simpa using hpb
          rw [this]
          exact hhead x hx

theorem processHeaders_eq_filterMap (cfg : Config) (l : List (String × String))
    (hlc : ∀ kv ∈ l, lowerStr kv.1 = kv.1)
    (hnd : (l.map (fun kv => kv.1)).Nodup) :
    processHeaders cfg l = l.filterMap (headerMapFn cfg) := by
  rw [processHeaders, processHeaders_foldl_eq cfg l [] hlc hnd (by simp),
    List.nil_append]
  apply map_eq_self_of_mem
  intro kv hkv
  rw [List.mem_filterMap] at hkv
  obtain ⟨a, ha, hfa⟩ := hkv
  rw [headerMapFn] at hfa
  split at hfa
  · have : kv = ("host", cfg.origin) := by injection hfa with h; exact h.symm
    rw [this]
    simp [show lowerStr "host" = "host" from by decide]
  · split at hfa
    · exact absurd hfa (by simp)
    · have : kv = a := by injection hfa with h; exact h.symm
      rw [this, hlc a ha]

/-- C7.  For every inbound request header set (lowercase, duplicate-free
names, as produced by a Fetch `Headers` iterator), the outbound transform
keeps every original header except `accept-encoding`, `connection`,
`keep-alive` and `content-length` (which are dropped), keeps nothing else
except the rewritten `host`, and the `host` header of the output equals
the configured origin host regardless of the inbound request's Host
value. -/
theorem processHeaders_drops_and_rewrites (cfg : Config) (l : List (String × String))
    (hlc : ∀ kv ∈ l, lowerStr kv.1 = kv.1)
    (hnd : (l.map (fun kv => kv.1)).Nodup) :
    (∀ kv ∈ l, kv.1 ∉ droppedReqHeaders → kv.1 ≠ "host" → kv ∈ processHeaders cfg l)
    ∧ (∀ kv ∈ processHeaders cfg l, kv.1 ≠ "host" →
        kv ∈ l ∧ kv.1 ∉ droppedReqHeaders)
    ∧ (∀ kv ∈ processHeaders cfg l, kv.1 = "host" → kv.2 = cfg.origin)
    ∧ (∀ v : String, ("host", v) ∈ l → ("host", cfg.origin) ∈ processHeaders cfg l) := by
  rw [processHeaders_eq_filterMap cfg l hlc hnd]
  refine ⟨?_, ?_, ?_, ?_⟩
  · intro kv hm hdrop hhost
    rw [List.mem_filterMap]
    refine ⟨kv, hm, ?_⟩
    rw [headerMapFn]
    simp [hlc kv hm, hhost, List.elem_iff, hdrop]
  · intro kv hm hhost
    rw [List.mem_filterMap] at hm
    obtain ⟨a, ha, hfa⟩ := hm
    rw [headerMapFn] at hfa
    split at hfa
    · exact absurd (by injection hfa with h; rw [← h]) hhost
    · split at hfa
      · exact absurd hfa (by simp)
      · next hnd2 =>
        have hak : kv = a := by injection hfa with h; exact h.symm
        subst hak
        refine ⟨ha, ?_⟩
        rw [← hlc kv ha]
        simpa [List.elem_iff] using hnd2
  · intro kv hm hhost
    rw [List.mem_filterMap] at hm
    obtain ⟨a, ha, hfa⟩ := hm
    rw [headerMapFn] at hfa
    split at hfa
    · injection hfa with h
      rw [← h]
    · split at hfa
      · exact absurd hfa (by simp)
      · next hahost _ =>
        have hak : kv = a := by injection hfa with h; exact h.symm
        exact absurd (by rw [hlc a ha, ← hak]; exact hhost) hahost
  · intro v hv
    rw [List.mem_filterMap]
    refine ⟨("host", v), hv, ?_⟩
    rw [headerMapFn]
    simp [show lowerStr "host" = "host" from by decide]

/-- C7 witness: a concrete header set — `accept-encoding` is dropped,
`user-agent` is kept verbatim, and the inbound `host: client.example` is
rewritten to the configured origin host. -/
theorem processHeaders_drops_and_rewrites_witness :
    ("user-agent", "UA") ∈ processHeaders { origin := "origin.example" }
        [("host", "client.example"), ("accept-encoding", "gzip"), ("user-agent", "UA")]
    ∧ ("host", "origin.example") ∈ processHeaders { origin := "origin.example" }
        [("host", "client.example"), ("accept-encoding", "gzip"), ("user-agent", "UA")] :=
  ⟨(processHeaders_drops_and_rewrites { origin := "origin.example" } _
      (by decide) (by decide)).1 _ (by decide) (by decide) (by decide),
    (processHeaders_drops_and_rewrites { origin := "origin.example" } _
      (by decide) (by decide)).2.2.2 "client.example" (by decide)⟩

/-! ## String lemmas for the redirect and cache-key claims -/

theorem isPrefixOf_append_self (l t : List Char) : l.isPrefixOf (l ++ t) = true := by
  induction l with
  | nil => simp [List.isPrefixOf]
  | cons a as ih => simp [List.isPrefixOf, ih]

theorem replaceFirstL_cons (p r : List Char) (c : Char) (t : List Char) :
    replaceFirstL p r (c :: t)
      = if p.isPrefixOf (c :: t) then r ++ (c :: t).drop p.length
        else c :: replaceFirstL p r t := rfl

theorem replaceFirstL_append (p r b : List Char) :
    replaceFirstL p r (p ++ b) = r ++ b := by
  cases p with
  | nil =>
    cases b with
    | nil => simp [replaceFirstL]
    | cons c bs => simp [replaceFirstL, List.isPrefixOf]
  | cons a as =>
    rw [List.cons_append, replaceFirstL_cons,
      if_pos (by rw [← List.cons_append]; exact isPrefixOf_append_self (a :: as) b),
      List.length_cons, List.drop_succ_cons, List.drop_left]

theorem strReplaceFirst_append_left (a b r : String) :
    strReplaceFirst (a ++ b) a r = r ++ b := by
  apply String.ext
  show replaceFirstL a.data r.data (a ++ b).data = (r ++ b).data
  rw [String.data_append, String.data_append, replaceFirstL_append]

theorem strAppend_left_cancel {s a b : String} (h : s ++ a = s ++ b) : a = b := by
  apply String.ext
  have hd := congrArg String.data h
  rw [String.data_append, String.data_append] at hd
  exact List.append_cancel_left hd

/-! ## Claim C5: redirect-location rewriting (corrected)

The source decides "references the configured origin host" with a
substring test (`location.includes(ORIGIN_SERVER)`) and rewrites with a
first-occurrence string replacement of the exact text
`PROTOCOL://ORIGIN_SERVER` — not by parsing the URL's host.  An absolute
URL to a *different* host that merely contains the origin base URL as a
substring (for example inside its query string) is therefore modified,
refuting the claim's "absolute URL to any other host is passed through
unchanged". -/

/-- C5 counterexample: a redirect to the foreign host `evil.example`
whose query string embeds the origin base URL is rewritten by the code,
whereas the claim requires it to pass through unchanged. -/
theorem fixRedirect_foreign_host_rewritten :
    fixRedirectUrl { protocol := "https", origin := "origin.example" }
        "https://evil.example/a?u=https://origin.example/x"
        (some ("http", "mirror.local"))
      = .ok (some "https://evil.example/a?u=http://mirror.local/x")
    ∧ ("https://evil.example/a?u=http://mirror.local/x" : String)
        ≠ "https://evil.example/a?u=https://origin.example/x" := by
  exact ⟨rfl, by decide⟩

/-- C5 (amended).  For a non-empty location and a parseable request URL:
a location that begins with the configured origin base
`originScheme://originHost` (and hence contains the origin host) has
exactly that prefix rewritten to the mirror's own scheme+host, the rest
untouched; an absolute http(s) location that does not contain the origin
host as a substring is returned unchanged; a relative location gets a `/`
inserted when missing and the mirror's own scheme+host prepended. -/
theorem fixRedirectUrl_cases (cfg : Config) (location rest protocol host : String) :
    (location = (cfg.protocol ++ "://" ++ cfg.origin) ++ rest →
      (strStartsWith location "http://" || strStartsWith location "https://") = true →
      strHasSubstr location cfg.origin = true →
      fixRedirectUrl cfg location (some (protocol, host))
        = .ok (some ((protocol ++ "://" ++ host) ++ rest)))
    ∧ ((strStartsWith location "http://" || strStartsWith location "https://") = true →
      strHasSubstr location cfg.origin = false →
      fixRedirectUrl cfg location (some (protocol, host)) = .ok (some location))
    ∧ ((strStartsWith location "http://" || strStartsWith location "https://") = false →
      location ≠ "" →
      fixRedirectUrl cfg location (some (protocol, host))
        = .ok (some (protocol ++ "://" ++ host ++
            (if strStartsWith location "/" then location else "/" ++ location)))) := by
  refine ⟨?_, ?_, ?_⟩
  · intro heq habs hsub
    have hne : location ≠ "" := by
      intro h
      rw [h] at habs
      exact absurd habs (by decide)
    simp only [fixRedirectUrl, hne, if_false, reduceIte, habs, if_true, hsub]
    rw [heq, strReplaceFirst_append_left]
  · intro habs hsub
    have hne : location ≠ "" := by
      intro h
      rw [h] at habs
      exact absurd habs (by decide)
    simp [fixRedirectUrl, hne, habs, hsub]
  · intro habs hne
    simp [fixRedirectUrl, hne, habs]

/-- C5 witness: the canonical rewrite — `https://origin.example/x`
against origin `origin.example`, a request made as
`http://mirror.local/...`, yields `http://mirror.local/x`. -/
theorem fixRedirectUrl_cases_witness :
    fixRedirectUrl { protocol := "https", origin := "origin.example" }
        "https://origin.example/x" (some ("http", "mirror.local"))
      = .ok (some (("http" ++ "://" ++ "mirror.local") ++ "/x")) :=
  (fixRedirectUrl_cases { protocol := "https", origin := "origin.example" }
      "https://origin.example/x" "/x" "http" "mirror.local").1
    (by decide) (by decide) (by decide)

/-! ## Claim C6: totality of the redirect fixer (code bug)

The spec requires that any failure to parse the inbound request's own URL
yield `null` rather than raise; the source's `catch` block (which logs
and returns `null`) shows the same intent.  But the `new URL(c.req.url)`
call sits *before* the `try` block, so a parse failure propagates as an
exception to the caller (where the surrounding proxy handler turns it
into a 502) instead of returning `null`. -/

/-- C6.  Evaluation at the failing input: with a non-empty location and
an unparseable request URL the function raises (models the `new URL`
throw escaping the function) instead of returning `null`; the empty
location does yield `null` as claimed. -/
theorem fixRedirectUrl_parse_failure_raises :
    fixRedirectUrl { protocol := "https", origin := "origin.example" } "/x" none
      = .error ()
    ∧ fixRedirectUrl { protocol := "https", origin := "origin.example" } "" none
      = .ok none :=
  ⟨rfl, rfl⟩

/-! ## Claim C9: cache keys depend on the full URL, Host included (corrected)

The source builds the key as `` `cache:${c.req.url}` ``, and `c.req.url`
is the absolute request URL, which embeds the inbound Host header.  Two
requests with identical path and query but different Host values
therefore get different keys, refuting the claim's "independently of the
inbound request's Host header". -/

/-- C9 counterexample: identical path+query `/x?q=1` under two different
Host headers produces two different cache keys. -/
theorem cacheKey_depends_on_host :
    cacheKeyOf (reqFullUrl "http" "a.example" "/x?q=1")
      ≠ cacheKeyOf (reqFullUrl "http" "b.example" "/x?q=1") := by decide

/-- C9 (amended).  The cache key of every GET request is derived
deterministically from the request's full URL (scheme, host, path and
query), prefixed with the `cache:` namespace: two requests receive the
same key exactly when their full URLs coincide, and requests that differ
only in the Host header receive different keys even for identical
path+query. -/
theorem cacheKey_characterisation (s1 h1 t1 s2 h2 t2 : String) :
    (cacheKeyOf (reqFullUrl s1 h1 t1) = cacheKeyOf (reqFullUrl s2 h2 t2)
      ↔ reqFullUrl s1 h1 t1 = reqFullUrl s2 h2 t2)
    ∧ (s1 = s2 → t1 = t2 → h1 ≠ h2 →
      cacheKeyOf (reqFullUrl s1 h1 t1) ≠ cacheKeyOf (reqFullUrl s2 h2 t2)) := by
  constructor
  · constructor
    · intro h
      exact strAppend_left_cancel h
    · intro h
      rw [cacheKeyOf, cacheKeyOf, h]
  · intro hs ht hh hkey
    subst hs
    subst ht
    have hurl := strAppend_left_cancel hkey
    have hd := congrArg String.data hurl
    simp only [reqFullUrl, String.data_append, List.append_assoc] at hd
    exact hh (String.ext
      (List.append_cancel_right (List.append_cancel_left (List.append_cancel_left hd))))

/-- C9 witness: the amended theorem at concrete hosts — same scheme and
target, different Host, different keys. -/
theorem cacheKey_characterisation_witness :
    cacheKeyOf (reqFullUrl "http" "a.example" "/y")
      ≠ cacheKeyOf (reqFullUrl "http" "c.example" "/y") :=
  (cacheKey_characterisation "http" "a.example" "/y" "http" "c.example" "/y").2
    rfl rfl (by decide)

end SiteMirror
